import Mathlib

/-!
Verification development for the JobSpy multi-source job-scraper.

The definitions below are a shallow embedding of the Python sources:
`jobspy/util.py` (salary extraction, FlareSolverr access, canonical column
order), `jobspy/google/__init__.py`, `jobspy/ziprecruiter/__init__.py`,
`jobspy/glassdoor/__init__.py` (the per-source scrapers) and
`jobspy/__init__.py` (the orchestrator and result merger).  Network fetches
and HTML parsing are abstracted as explicit inputs (lists of page outcomes,
parser oracles); everything else follows the source line by line.
-/

namespace JobSpy

/-- Compensation record carried by a `JobPost` (from `jobspy.model`, whose
definitions are not in the sources; modelled from the spec: nullable
interval + min/max amount + currency).  Interval values are the enum value
strings used by the code (`"hourly"`, `"monthly"`, ...). -/
structure Compensation where
  interval : Option String
  min_amount : Option Nat
  max_amount : Option Nat
  currency : Option String
deriving DecidableEq, Repr

/-- Normalized job listing (from `jobspy.model`, not in the sources;
modelled from the spec: source-prefixed id, title, canonical URL, nullable
date, nullable compensation, free-text description).  Dates are modelled
as day numbers. -/
structure JobPost where
  id : String
  title : String
  job_url : String
  date_posted : Option Nat
  description : Option String
  compensation : Option Compensation
deriving DecidableEq, Repr

/-! ### Salary extraction (`jobspy/util.py`, `extract_salary`)

The regex `\$(\d+(?:,\d+)?(?:\.\d+)?)([kK]?)\s*[-—–]\s*(?:\$)?(\d+(?:,\d+)?(?:\.\d+)?)([kK]?)`
is embedded as a deterministic matcher.  On this pattern greedy matching
never needs to backtrack: after shortening any `\d+` run the next input
character is a digit, which no later pattern element can consume, and
declining an optional group leaves a `,`, `.`, `k` or `$` in front of an
element that cannot consume it.  `re.search` is the leftmost such match. -/

/-- Longest run of decimal digits at the head of the input (`\d+`, greedy). -/
def takeDigits : List Char → List Char × List Char
  | [] => ([], [])
  | c :: cs =>
    if c.isDigit then
      let p := takeDigits cs
      (c :: p.1, p.2)
    else ([], c :: cs)

/-- Numeric value of a digit run. -/
def digitsToNat (ds : List Char) : Nat :=
  ds.foldl (fun n c => n * 10 + (c.toNat - 48)) 0

/-- One number group `\d+(?:,\d+)?(?:\.\d+)?` together with the Python
`to_int` conversion (`int(float(s.replace(",", "")))`): the comma part is
concatenated into the integer value and any fractional part is truncated
away.  Returns the value and the unconsumed input. -/
def parseNumber (s : List Char) : Option (Nat × List Char) :=
  match takeDigits s with
  | ([], _) => none
  | (ds, r) =>
    let p2 :=
      match r with
      | ',' :: t =>
        match takeDigits t with
        | ([], _) => (([] : List Char), r)
        | (es, r2) => (es, r2)
      | _ => (([] : List Char), r)
    let r3 :=
      match p2.2 with
      | '.' :: t =>
        match takeDigits t with
        | ([], _) => p2.2
        | (_, r2) => r2
      | _ => p2.2
    some (digitsToNat (ds ++ p2.1), r3)

/-- A number group followed by the optional suffix `[kK]?`. -/
def parseNumK (s : List Char) : Option (Nat × Bool × List Char) :=
  match parseNumber s with
  | none => none
  | some (n, r) =>
    match r with
    | 'k' :: t => some (n, true, t)
    | 'K' :: t => some (n, true, t)
    | _ => some (n, false, r)

/-- Python `\s` on the ASCII range. -/
def isPySpace (c : Char) : Bool :=
  c = ' ' || c = '\t' || c = '\n' || c = '\r' || c = '\x0b' || c = '\x0c'

/-- The dash alternatives `[-—–]` (hyphen, em-dash, en-dash). -/
def isDashChar (c : Char) : Bool :=
  c = '-' || c = '—' || c = '–'

/-- The four captured groups of one `min_max_pattern` match. -/
structure SalMatch where
  minVal : Nat
  minK : Bool
  maxVal : Nat
  maxK : Bool
deriving DecidableEq, Repr

/-- Attempts the whole `min_max_pattern` at the head of the input. -/
def matchMinMaxAt (s : List Char) : Option SalMatch :=
  match s with
  | '$' :: rest =>
    match parseNumK rest with
    | none => none
    | some (mn, k1, r1) =>
      match r1.dropWhile isPySpace with
      | [] => none
      | d :: r3 =>
        if isDashChar d then
          let r4 := r3.dropWhile isPySpace
          let r5 :=
            match r4 with
            | '$' :: t => t
            | _ => r4
          match parseNumK r5 with
          | none => none
          | some (mx, k2, _) => some ⟨mn, k1, mx, k2⟩
        else none
  | _ => none

/-- `re.search(min_max_pattern, s)`: leftmost match. -/
def regexSearchMinMax : List Char → Option SalMatch
  | [] => none
  | c :: cs =>
    match matchMinMaxAt (c :: cs) with
    | some m => some m
    | none => regexSearchMinMax cs

/-- The `'k'` suffix handling of `extract_salary` (util.py lines 291-294):
when either captured suffix group contains a `k`, both the min and the max
are multiplied by 1000. -/
def applyKSuffix (m : SalMatch) : Nat × Nat :=
  if m.minK || m.maxK then (m.minVal * 1000, m.maxVal * 1000)
  else (m.minVal, m.maxVal)

/-- Result quadruple of `extract_salary`:
(interval, min_amount, max_amount, currency). -/
abbrev SalaryQuad : Type :=
  Option String × Option Nat × Option Nat × Option String

/-- Range validation of `extract_salary` (util.py lines 314-326), applied
after classification: `if not annual_max_salary` treats both a missing and
a zero annualized max as falsy; the annualized range must sit inside
`[lower_limit, upper_limit]` with `annual_min < annual_max`. -/
def salaryValidate (lowerLimit upperLimit : Nat) (enforceAnnualSalary : Bool)
    (minSalary maxSalary : Nat) (interval : String) (annualMin : Nat)
    (annualMaxOpt : Option Nat) : SalaryQuad :=
  match annualMaxOpt with
  | none => (none, none, none, none)
  | some annualMax =>
    if annualMax = 0 then (none, none, none, none)
    else if lowerLimit ≤ annualMin ∧ annualMin ≤ upperLimit ∧
        lowerLimit ≤ annualMax ∧ annualMax ≤ upperLimit ∧
        annualMin < annualMax then
      if enforceAnnualSalary then
        (some interval, some annualMin, some annualMax, some "USD")
      else
        (some interval, some minSalary, some maxSalary, some "USD")
    else (none, none, none, none)

/-- Classification and annualization of the matched (post-`k`) min/max
values (util.py lines 296-312), followed by validation: the interval comes
from the min's magnitude band, and the annualized max is only computed
when the max sits in the same band. -/
def salaryFromMinMax (lowerLimit upperLimit hourlyThreshold monthlyThreshold : Nat)
    (enforceAnnualSalary : Bool) (minSalary maxSalary : Nat) : SalaryQuad :=
  if minSalary < hourlyThreshold then
    salaryValidate lowerLimit upperLimit enforceAnnualSalary minSalary maxSalary
      "hourly" (minSalary * 2080)
      (if maxSalary < hourlyThreshold then some (maxSalary * 2080) else none)
  else if minSalary < monthlyThreshold then
    salaryValidate lowerLimit upperLimit enforceAnnualSalary minSalary maxSalary
      "monthly" (minSalary * 12)
      (if maxSalary < monthlyThreshold then some (maxSalary * 12) else none)
  else
    salaryValidate lowerLimit upperLimit enforceAnnualSalary minSalary maxSalary
      "yearly" minSalary (some maxSalary)

/-- `extract_salary(salary_str, lower_limit, upper_limit, hourly_threshold,
monthly_threshold, enforce_annual_salary)` from util.py. -/
def extract_salary (lowerLimit upperLimit hourlyThreshold monthlyThreshold : Nat)
    (enforceAnnualSalary : Bool) (s : List Char) : SalaryQuad :=
  if s.isEmpty then (none, none, none, none)
  else
    match regexSearchMinMax s with
    | none => (none, none, none, none)
    | some m =>
      let p := applyKSuffix m
      salaryFromMinMax lowerLimit upperLimit hourlyThreshold monthlyThreshold
        enforceAnnualSalary p.1 p.2

/-- `extract_salary` at its default parameter values
(1000, 700000, 350, 30000). -/
def extractSalaryDefaults (enforceAnnualSalary : Bool) (s : List Char) : SalaryQuad :=
  extract_salary 1000 700000 350 30000 enforceAnnualSalary s

/-! ### FlareSolverr access and its consumers (`util.py`, `google`, `ziprecruiter`)

`flaresolverr_get` always returns a 2-tuple: `(None, None)` when the
service is unconfigured or fails, `(text, cookies)` on success.  Both the
Google and the ZipRecruiter scraper bind that tuple to `fs_result`, test
`fs_result is None` / `is not None` and then evaluate
`fs_result["response"]`.  Dynamic Python values and string subscription
are modelled explicitly so that this evaluation keeps its real semantics:
subscripting a tuple with a string raises `TypeError`. -/

/-- The dynamic Python values this code manipulates.  The only tuples in
play are the pairs returned by `flaresolverr_get`, and the cookie list is
an opaque payload the callers never take apart. -/
inductive PyVal where
  | pyNone
  | pyStr (s : String)
  | pyCookieList (cookies : List String)
  | pyPair (fst snd : PyVal)
deriving DecidableEq, Repr

/-- Exceptions that can escape the modelled fragments. -/
inductive PyErr where
  | typeError (msg : String)
deriving DecidableEq, Repr

/-- `v["response"]`-style subscription with a string key.  None of the
value forms appearing here supports string keys, so every case raises. -/
def PyVal.subscriptStr : PyVal → String → Except PyErr PyVal
  | .pyPair _ _, _ =>
    .error (.typeError "tuple indices must be integers or slices, not str")
  | .pyCookieList _, _ =>
    .error (.typeError "list indices must be integers or slices, not str")
  | .pyStr _, _ => .error (.typeError "string indices must be integers")
  | .pyNone, _ => .error (.typeError "NoneType object is not subscriptable")

/-- Outcome of one FlareSolverr round trip (network and JSON decoding
abstracted): an `ok`-status solution, or any failure path. -/
inductive FsOutcome where
  | okResponse (text : String) (cookies : List String)
  | failed
deriving DecidableEq, Repr

/-- Whether `FLARESOLVERR_URL` is set, and what the service would answer. -/
structure FsConfig where
  configured : Bool
  outcome : FsOutcome
deriving DecidableEq, Repr

/-- `flaresolverr_get(url)` from util.py: `(None, None)` when unconfigured,
`(solution.response, solution.cookies)` on an `ok` status, `(None, None)`
on a non-ok status or an exception.  In every case a 2-tuple. -/
def flaresolverr_get (cfg : FsConfig) : PyVal :=
  if cfg.configured then
    match cfg.outcome with
    | .okResponse text cookies => .pyPair (.pyStr text) (.pyCookieList cookies)
    | .failed => .pyPair .pyNone .pyNone
  else .pyPair .pyNone .pyNone

/-- `needle.isPrefixOf hay` spelled out for `Char` lists. -/
def startsWithChars : List Char → List Char → Bool
  | [], _ => true
  | _ :: _, [] => false
  | a :: as, b :: bs => a = b && startsWithChars as bs

/-- Python's `needle in hay` on strings, over `Char` lists. -/
def containsSub (needle : List Char) : List Char → Bool
  | [] => needle.isEmpty
  | c :: t => startsWithChars needle (c :: t) || containsSub needle t

/-- An HTTP response as the scrapers observe it. -/
structure HttpResponse where
  status : Nat
  text : String
deriving DecidableEq, Repr

/-- The marker string whose presence tells Google's job payload apart
from a JS challenge page. -/
def googleJobsMarker : String := "520084652"

/-- The direct-request acceptance test of `Google._get_initial_cursor_and_jobs`
(google/__init__.py lines 142-146): status 200, at least
`MIN_RESPONSE_LENGTH = 1000` bytes, and the job-data marker present. -/
def googleDirectOk (r : HttpResponse) : Bool :=
  r.status == 200 && 1000 ≤ r.text.length && containsSub googleJobsMarker.data r.text.data

/-- `Google._get_initial_cursor_and_jobs`, from the direct request on
(query building and logging dropped; the HTML/JSON parsing of a good
payload is the oracle `parseInitial`).  On a failed direct check the
FlareSolverr fallback result is consumed with `fs_result["response"]`
guarded only by `fs_result is not None`. -/
def google_get_initial_cursor_and_jobs
    (parseInitial : String → Option String × List JobPost)
    (direct : HttpResponse) (fs : FsConfig) :
    Except PyErr (Option String × List JobPost) := do
  let responseText : Option String ←
    if googleDirectOk direct then
      pure (some direct.text)
    else
      let fsResult := flaresolverr_get fs
      if fsResult ≠ PyVal.pyNone then do
        let v ← fsResult.subscriptStr "response"
        pure (match v with | .pyStr s => some s | _ => none)
      else
        pure none
  match responseText with
  | none => pure (none, [])
  | some t =>
    if t.length < 1000 then pure (none, [])
    else pure (parseInitial t)

/-- Outcome of one `Google._get_jobs_next_page` call: the parsed jobs, the
growth of `seen_urls` during parsing, and the next cursor — or a raised
exception (caught by the loop). -/
inductive GooglePageOutcome where
  | fetched (jobs : List JobPost) (seenAdded : Nat) (next : Option String)
  | raised
deriving Repr

/-- The pagination loop of `Google.scrape` (lines 65-81): run while
`len(seen_urls) < results_wanted + offset` and a cursor remains; a raised
page fetch or an empty page breaks. -/
def googlePaginate (lim : Nat) :
    List GooglePageOutcome → Nat → Option String → List JobPost → List JobPost
  | pages, seen, cursor, acc =>
    match cursor with
    | none => acc
    | some _ =>
      if seen < lim then
        match pages with
        | [] => acc
        | .raised :: _ => acc
        | .fetched jobs seenAdded next :: rest =>
          if jobs.isEmpty then acc
          else googlePaginate lim rest (seen + seenAdded) next (acc ++ jobs)
      else acc

/-- `Google.scrape`: clamps `results_wanted` to 900, fetches the initial
cursor and jobs, and — only when a cursor was found — paginates and slices
`job_list[offset : offset + results_wanted]`.  With no initial cursor the
collected `job_list` is returned unsliced (line 61). -/
def googleScrape (parseInitial : String → Option String × List JobPost)
    (direct : HttpResponse) (fs : FsConfig) (pages : List GooglePageOutcome)
    (seen0 resultsWanted offset : Nat) : Except PyErr (List JobPost) := do
  let rw := min 900 resultsWanted
  let p ← google_get_initial_cursor_and_jobs parseInitial direct fs
  match p.1 with
  | none => pure p.2
  | some c =>
    let jobList := googlePaginate (rw + offset) pages seen0 (some c) p.2
    pure ((jobList.drop offset).take rw)

/-- One page of `ZipRecruiter._scrape_website` (lines 104-138), the path
taken when `FLARESOLVERR_URL` is set.  Each iteration binds the
`flaresolverr_get` tuple, tests it against `None` and subscripts it with
`"response"`. -/
def zrWebsiteLoop (fs : FsConfig) (parsePage : String → List JobPost)
    (resultsWanted : Nat) :
    Nat → List JobPost → Except PyErr (List JobPost)
  | 0, jobs => pure jobs
  | n + 1, jobs =>
    if resultsWanted ≤ jobs.length then pure jobs
    else
      let fsResult := flaresolverr_get fs
      if fsResult = PyVal.pyNone then pure jobs
      else do
        let v ← fsResult.subscriptStr "response"
        let pageJobs := parsePage (match v with | .pyStr s => s | _ => "")
        if pageJobs.isEmpty then pure jobs
        else zrWebsiteLoop fs parsePage resultsWanted n (jobs ++ pageJobs)

/-- `ZipRecruiter._scrape_website`: `max_pages = ceil(results_wanted / 20)`
pages through the website loop. -/
def zr_scrape_website (fs : FsConfig) (parsePage : String → List JobPost)
    (resultsWanted : Nat) : Except PyErr (List JobPost) :=
  zrWebsiteLoop fs parsePage resultsWanted ((resultsWanted + 19) / 20) []

/-- The legacy-API loop of `ZipRecruiter._scrape_api` (lines 244-263).
Each page outcome is the `(jobs_on_page, continue_token)` pair produced by
`_find_jobs_in_page` (which catches its own request errors and then
returns `([], "")`).  A falsy token — `None` or the empty string — ends
pagination. -/
def zrScrapeApi (resultsWanted : Nat) :
    List (List JobPost × Option String) → List JobPost → List JobPost
  | [], acc => acc
  | (jobs, tok) :: rest, acc =>
    if resultsWanted ≤ acc.length then acc
    else if jobs.isEmpty then acc
    else
      let acc1 := acc ++ jobs
      match tok with
      | none => acc1
      | some t => if t.isEmpty then acc1 else zrScrapeApi resultsWanted rest acc1

/-- `ZipRecruiter.scrape`: website scraping via FlareSolverr when it is
configured, the legacy mobile API otherwise; the result is cut to
`job_list[: results_wanted]`. -/
def zipScrape (fs : FsConfig) (parsePage : String → List JobPost)
    (apiPages : List (List JobPost × Option String)) (resultsWanted : Nat) :
    Except PyErr (List JobPost) := do
  let jobList ←
    if fs.configured then zr_scrape_website fs parsePage resultsWanted
    else pure (zrScrapeApi resultsWanted apiPages [])
  pure (jobList.take resultsWanted)

/-- The page loop of `Glassdoor.scrape` (lines 75-94): each page outcome is
the job list of `_fetch_jobs_page`, or `none` for an exception reaching the
`except` clause.  After extending, an empty page or reaching
`results_wanted` truncates to `job_list[: results_wanted]` and breaks. -/
def glassdoorPaginate (resultsWanted : Nat) :
    List (Option (List JobPost)) → List JobPost → List JobPost
  | [], acc => acc
  | none :: _, acc => acc
  | some jobs :: rest, acc =>
    let acc1 := acc ++ jobs
    if jobs.isEmpty || resultsWanted ≤ acc1.length then acc1.take resultsWanted
    else glassdoorPaginate resultsWanted rest acc1

/-- `Glassdoor.scrape`: `results_wanted` is clamped to 900 before the page
loop runs. -/
def glassdoor_scrape (resultsWanted : Nat)
    (pages : List (Option (List JobPost))) : List JobPost :=
  glassdoorPaginate (min 900 resultsWanted) pages []

/-! ### Per-job processing and deduplication (`Glassdoor._process_job`,
`ZipRecruiter._process_job`)

Both check the canonical job URL against the scraper's `seen_urls` set and
insert it before the per-job description fetch.  The state also keeps a
trace of the fetch keys actually passed to the detail fetch, so that
"no repeated fetch" is a statement about the model. -/

/-- Mutable per-scraper state: the `seen_urls` set and the trace of
detail-fetch calls made so far. -/
structure ScrapeState where
  seen_urls : List String
  fetched : List String
deriving DecidableEq, Repr

/-- A raw Glassdoor job listing as taken from the GraphQL payload. -/
structure GdRawJob where
  listingId : String
  title : String
  ageInDays : Option Nat
  compensation : Option Compensation
deriving DecidableEq, Repr

/-- The canonical Glassdoor job URL `f"{base_url}job-listing/j?jl={job_id}"`. -/
def glassdoorJobUrl (baseUrl listingId : String) : String :=
  baseUrl ++ "job-listing/j?jl=" ++ listingId

/-- `Glassdoor._process_job`: seen-URL check and insertion, then the
description fetch (`_fetch_job_description`, keyed by the listing id,
its own errors giving `None`), then the `JobPost`. -/
def glassdoor_process_job (baseUrl : String) (fetchDescr : String → Option String)
    (st : ScrapeState) (raw : GdRawJob) : ScrapeState × Option JobPost :=
  let job_url := glassdoorJobUrl baseUrl raw.listingId
  if st.seen_urls.contains job_url then (st, none)
  else
    let st1 : ScrapeState := { st with seen_urls := st.seen_urls ++ [job_url] }
    let description := fetchDescr raw.listingId
    let st2 : ScrapeState := { st1 with fetched := st1.fetched ++ [raw.listingId] }
    (st2, some
      { id := "gd-" ++ raw.listingId
        title := raw.title
        job_url := job_url
        date_posted := raw.ageInDays
        description := description
        compensation := raw.compensation })

/-- One page's worth of `Glassdoor._process_job` calls, non-`None` results
collected. -/
def glassdoor_process_jobs (baseUrl : String) (fetchDescr : String → Option String) :
    ScrapeState → List GdRawJob → ScrapeState × List JobPost
  | st, [] => (st, [])
  | st, r :: rs =>
    let p := glassdoor_process_job baseUrl fetchDescr st r
    let q := glassdoor_process_jobs baseUrl fetchDescr p.1 rs
    (q.1, match p.2 with | some jp => jp :: q.2 | none => q.2)

/-- A raw ZipRecruiter job dict as taken from the API response. -/
structure ZrRawJob where
  listing_key : String
  name : String
  posted_time : Nat
  compensation : Option Compensation
deriving DecidableEq, Repr

/-- The canonical ZipRecruiter job URL
`f"{base_url}/jobs//j?lvk={listing_key}"`. -/
def zrJobUrl (listing_key : String) : String :=
  "https://www.ziprecruiter.com/jobs//j?lvk=" ++ listing_key

/-- `ZipRecruiter._process_job`: seen-URL check and insertion, then the
detail fetch `_get_descr(job_url)` (returning the full description and the
direct URL), then the `JobPost`. -/
def ziprecruiter_process_job (fetchDescr : String → Option String × Option String)
    (st : ScrapeState) (raw : ZrRawJob) : ScrapeState × Option JobPost :=
  let job_url := zrJobUrl raw.listing_key
  if st.seen_urls.contains job_url then (st, none)
  else
    let st1 : ScrapeState := { st with seen_urls := st.seen_urls ++ [job_url] }
    let d := fetchDescr job_url
    let st2 : ScrapeState := { st1 with fetched := st1.fetched ++ [job_url] }
    (st2, some
      { id := "zr-" ++ raw.listing_key
        title := raw.name
        job_url := job_url
        date_posted := some raw.posted_time
        description := d.1
        compensation := raw.compensation })

/-- One page's worth of `ZipRecruiter._process_job` calls. -/
def ziprecruiter_process_jobs (fetchDescr : String → Option String × Option String) :
    ScrapeState → List ZrRawJob → ScrapeState × List JobPost
  | st, [] => (st, [])
  | st, r :: rs =>
    let p := ziprecruiter_process_job fetchDescr st r
    let q := ziprecruiter_process_jobs fetchDescr p.1 rs
    (q.1, match p.2 with | some jp => jp :: q.2 | none => q.2)

/-! ### Orchestrator (`jobspy/__init__.py`, `scrape_jobs` lines 124-137)

One future per requested site; `as_completed` results land in
`site_to_jobs_dict[site_value]`, a raised scraper is logged and skipped.
The completion-ordered outcomes are the input list. -/

/-- One site's outcome: its value string paired with the scraper's
`JobResponse` job list or its raised exception. -/
abbrev SiteOutcome := String × Except String (List JobPost)

/-- Python-dict assignment `d[k] = v`: overwrite if the key exists,
append otherwise. -/
def dictSet (d : List (String × List JobPost)) (k : String) (v : List JobPost) :
    List (String × List JobPost) :=
  if d.any (fun p => p.1 == k) then
    d.map (fun p => if p.1 == k then (k, v) else p)
  else d ++ [(k, v)]

/-- One `as_completed` iteration: a successful future is stored under its
site value, a raised one is only logged. -/
def collectStep (d : List (String × List JobPost)) (r : SiteOutcome) :
    List (String × List JobPost) :=
  match r.2 with
  | .ok jobs => dictSet d r.1 jobs
  | .error _ => d

/-- The `as_completed` collection loop over the completion order. -/
def collectSiteResults (outcomes : List SiteOutcome) : List (String × List JobPost) :=
  outcomes.foldl collectStep []

/-- The `(site, job)` rows subsequently flattened out of
`site_to_jobs_dict.items()` (lines 141-142). -/
def mergedSiteRows (outcomes : List SiteOutcome) : List (String × JobPost) :=
  (collectSiteResults outcomes).flatMap (fun p => p.2.map (fun j => (p.1, j)))

/-! ### ScraperInput mutation (`Google.scrape` line 51, `Glassdoor.scrape`
line 60) -/

/-- Modelled from the spec: `ScraperInput` itself lives in `jobspy.model`,
which is not among the sources; its fields are the request fields the spec
names in §3 and the orchestrator passes in `jobspy/__init__.py` lines
86-102. -/
structure ScraperInput where
  site_type : List String
  search_term : Option String
  google_search_term : Option String
  location : Option String
  distance : Nat
  is_remote : Bool
  job_type : Option String
  easy_apply : Option Bool
  description_format : String
  linkedin_fetch_description : Bool
  results_wanted : Nat
  linkedin_company_ids : List Nat
  offset : Nat
  hours_old : Option Nat
  country : String
deriving DecidableEq, Repr

/-- Effect of `Google.scrape` on the shared input object:
`self.scraper_input.results_wanted = min(900, scraper_input.results_wanted)`
writes through the alias taken one line earlier. -/
def google_scrape_input_after (si : ScraperInput) : ScraperInput :=
  { si with results_wanted := min 900 si.results_wanted }

/-- Effect of `Glassdoor.scrape` on the shared input object (same in-place
clamp as Google). -/
def glassdoor_scrape_input_after (si : ScraperInput) : ScraperInput :=
  { si with results_wanted := min 900 si.results_wanted }

/-- Effect of `ZipRecruiter.scrape` on the shared input object: it only
reads it. -/
def ziprecruiter_scrape_input_after (si : ScraperInput) : ScraperInput :=
  si

/-! ### Per-record salary columns in the merge step
(`jobspy/__init__.py` lines 160-196) -/

/-- The five salary-related entries of one record's `job_data` dict after
the merge step.  The outer `Option` is dict-key presence: `none` means the
key was never assigned for this record. -/
structure SalaryCols where
  interval : Option (Option String)
  min_amount : Option (Option Nat)
  max_amount : Option (Option Nat)
  currency : Option (Option String)
  salary_source : Option (Option String)
deriving DecidableEq, Repr

/-- `convert_to_annual(job_data)` from util.py: sequential interval checks
multiply the amounts, then the interval is relabelled `"yearly"`. -/
def convert_to_annual (interval : Option String) (mn mx : Nat) :
    Option String × Nat × Nat :=
  let p1 := if interval = some "hourly" then (mn * 2080, mx * 2080) else (mn, mx)
  let p2 := if interval = some "monthly" then (p1.1 * 12, p1.2 * 12) else p1
  let p3 := if interval = some "weekly" then (p2.1 * 52, p2.2 * 52) else p2
  let p4 := if interval = some "daily" then (p3.1 * 260, p3.2 * 260) else p3
  (some "yearly", p4.1, p4.2)

/-- The characters `extract_salary` receives for a record's description
(`None` behaves like an empty string through `if not salary_str`). -/
def descChars : Option String → List Char
  | some d => d.data
  | none => []

/-- Lines 160-191 of `scrape_jobs` for one record: a structured
compensation dict fills the four columns directly (annualized on demand);
otherwise description-based extraction runs only for `Country.USA`. -/
def mergeSalaryBase (countryIsUSA : Bool) (enforceAnnual : Bool)
    (comp : Option Compensation) (description : Option String) : SalaryCols :=
  match comp with
  | some co =>
    let cols : SalaryCols :=
      { interval := some co.interval
        min_amount := some co.min_amount
        max_amount := some co.max_amount
        currency := some co.currency
        salary_source := some (some "direct_data") }
    match co.interval, co.min_amount, co.max_amount with
    | some iv, some mn, some mx =>
      if enforceAnnual ∧ iv ≠ "yearly" ∧ mn ≠ 0 ∧ mx ≠ 0 then
        let r := convert_to_annual (some iv) mn mx
        { cols with
            interval := some r.1
            min_amount := some (some r.2.1)
            max_amount := some (some r.2.2) }
      else cols
    | _, _, _ => cols
  | none =>
    if countryIsUSA then
      let q := extractSalaryDefaults enforceAnnual (descChars description)
      { interval := some q.1
        min_amount := some q.2.1
        max_amount := some q.2.2.1
        currency := some q.2.2.2
        salary_source := some (some "description") }
    else
      { interval := none, min_amount := none, max_amount := none,
        currency := none, salary_source := none }

/-- Lines 192-196: `salary_source` survives only alongside a present and
truthy (non-`None`, nonzero) `min_amount`; the key itself is always
assigned. -/
def finalizeSalarySource (base : SalaryCols) : SalaryCols :=
  let srcVal : Option String :=
    match base.min_amount with
    | some (some v) =>
      if v ≠ 0 then
        (match base.salary_source with | some s => s | none => none)
      else none
    | _ => none
  { base with salary_source := some srcVal }

/-- Lines 160-196 of `scrape_jobs` for one record's salary columns. -/
def mergeSalaryColumns (countryIsUSA : Bool) (enforceAnnual : Bool)
    (comp : Option Compensation) (description : Option String) : SalaryCols :=
  finalizeSalarySource (mergeSalaryBase countryIsUSA enforceAnnual comp description)

/-! ### Result table union and reorder (`scrape_jobs` lines 211-231)

Each job becomes a one-row frame; all-NA columns are dropped per frame,
the frames are concatenated (union of columns, null-filled), the missing
canonical columns are added as all-`None`, and the frame is reindexed to
`desired_order`. -/

/-- One record's `job_data` as (column, value) pairs; `none` is NA. -/
abbrev RecordRow := List (String × Option String)

/-- The canonical column order `desired_order` from util.py. -/
def desired_order : List String :=
  ["id", "site", "job_url", "job_url_direct", "title", "company", "location",
   "date_posted", "job_type", "salary_source", "interval", "min_amount",
   "max_amount", "currency", "is_remote", "job_level", "job_function",
   "listing_type", "emails", "description", "company_industry", "company_url",
   "company_logo", "company_url_direct", "company_addresses",
   "company_num_employees", "company_revenue", "company_description",
   "skills", "experience_range", "company_rating", "company_reviews_count",
   "vacancy_count", "work_from_home_type"]

/-- Step 1, `df.dropna(axis=1, how="all")` on a one-row frame: keep the
columns whose single value is not NA. -/
def dropAllNaCols (row : RecordRow) : RecordRow :=
  row.filter (fun p => p.2.isSome)

/-- First value of a column in a record row, NA when absent. -/
def rowLookup (row : RecordRow) (c : String) : Option String :=
  match row.find? (fun p => p.1 == c) with
  | some p => p.2
  | none => none

/-- One frame's contribution to the column union: its columns not yet
present, in order. -/
def unionStep (acc : List String) (row : RecordRow) : List String :=
  acc ++ ((row.map Prod.fst).filter (fun c => !(acc.contains c)))

/-- Column union of `pd.concat`: the first frame's columns, then each new
column in order of appearance. -/
def unionCols (rows : List RecordRow) : List String :=
  rows.foldl unionStep []

/-- A concatenated frame: shared column list, one cell list per row. -/
structure MergedFrame where
  columns : List String
  cells : List (List (Option String))
deriving DecidableEq, Repr

/-- Step 2, `pd.concat(filtered_dfs)`: align every row to the column
union, filling the holes with NA. -/
def concatFrames (filtered : List RecordRow) : MergedFrame :=
  let cols := unionCols filtered
  ⟨cols, filtered.map (fun row => cols.map (fun c => rowLookup row c))⟩

/-- Step 3: `for column in desired_order: if column not in jobs_df.columns:
jobs_df[column] = None`. -/
def addMissingDesired (t : MergedFrame) : MergedFrame :=
  let newCols := desired_order.filter (fun c => !(t.columns.contains c))
  ⟨t.columns ++ newCols,
    t.cells.map (fun r => r ++ newCols.map (fun _ => (none : Option String)))⟩

/-- Value of one cell, addressed by column name. -/
def cellAt (cols : List String) (cells : List (Option String)) (c : String) :
    Option String :=
  match (cols.zip cells).find? (fun p => p.1 == c) with
  | some p => p.2
  | none => none

/-- `jobs_df[desired_order]`-style column selection. -/
def selectColumns (t : MergedFrame) (sel : List String) : MergedFrame :=
  ⟨sel, t.cells.map (fun r => sel.map (fun c => cellAt t.columns r c))⟩

/-- The whole union/reorder stage: the `if jobs_dfs:` guard returns the
empty, columnless `pd.DataFrame()` for no records at all. -/
def mergeRecords (rows : List RecordRow) : MergedFrame :=
  match rows with
  | [] => ⟨[], []⟩
  | _ :: _ =>
    selectColumns (addMissingDesired (concatFrames (rows.map dropAllNaCols)))
      desired_order

/-! ### Final sort (`scrape_jobs` lines 227-229)

`sort_values(by=["site", "date_posted"], ascending=[True, False])` with
pandas' default `na_position="last"`: sites ascending; within one site,
dates descending with missing dates at the end. -/

/-- The sort key fields of one output row. -/
structure OutRow where
  site : String
  date_posted : Option Nat
deriving DecidableEq, Repr

/-- Missing dates sort after every real date in descending order, so the
key maps `None` below every real date. -/
def dateKey : Option Nat → Nat
  | none => 0
  | some d => d + 1

/-- The pandas row ordering: site ascending, then date descending with
nulls last. -/
def pandasRowLe (a b : OutRow) : Prop :=
  a.site < b.site ∨ (a.site = b.site ∧ dateKey b.date_posted ≤ dateKey a.date_posted)

instance : DecidableRel pandasRowLe := fun a b =>
  inferInstanceAs
    (Decidable (a.site < b.site ∨
      (a.site = b.site ∧ dateKey b.date_posted ≤ dateKey a.date_posted)))

instance : IsTotal OutRow pandasRowLe where
  total a b := by
    rcases lt_trichotomy a.site b.site with h | h | h
    · exact Or.inl (Or.inl h)
    · rcases Nat.le_total (dateKey b.date_posted) (dateKey a.date_posted) with h2 | h2
      · exact Or.inl (Or.inr ⟨h, h2⟩)
      · exact Or.inr (Or.inr ⟨h.symm, h2⟩)
    · exact Or.inr (Or.inl h)

instance : IsTrans OutRow pandasRowLe where
  trans a b c hab hbc := by
    rcases hab with hab | ⟨hab, hab2⟩
    · rcases hbc with hbc | ⟨hbc, _⟩
      · exact Or.inl (hab.trans hbc)
      · exact Or.inl (hbc ▸ hab)
    · rcases hbc with hbc | ⟨hbc, hbc2⟩
      · exact Or.inl (hab ▸ hbc)
      · exact Or.inr ⟨hab.trans hbc, hbc2.trans hab2⟩

/-- The final `sort_values` call on the merged rows. -/
def sortMergedRows (rows : List OutRow) : List OutRow :=
  List.insertionSort pandasRowLe rows

/-! ### Spec-side salary rule (for comparison with `salaryFromMinMax`)

These three definitions follow the wording of the spec's salary rule, not
the code; they exist to state how far the code agrees with it. -/

/-- The spec's interval classification: below 350 hourly, below 30000
monthly, otherwise yearly. -/
def specInterval (mn : Nat) : String :=
  if mn < 350 then "hourly" else if mn < 30000 then "monthly" else "yearly"

/-- The spec's annualization, fixed by the classification of the min:
hourly values ×2080, monthly ×12, yearly unchanged. -/
def specAnnual (mn v : Nat) : Nat :=
  if mn < 350 then v * 2080 else if mn < 30000 then v * 12 else v

/-- The additional discard rule the code enforces and the spec's sentence
does not mention: the max must fall in the same magnitude band as the
min. -/
def specInBand (mn mx : Nat) : Prop :=
  if mn < 350 then mx < 350 else if mn < 30000 then mx < 30000 else True

instance (mn mx : Nat) : Decidable (specInBand mn mx) := by
  unfold specInBand
  split
  · exact inferInstance
  · split
    · exact inferInstance
    · exact inferInstance

/-! ### Concrete example data used by counterexamples and witnesses -/

/-- The spec's yearly round-trip example. -/
def exSalaryYearlyStr : String := "$50,000 - $70,000"

/-- The spec's hourly round-trip example. -/
def exSalaryHourlyStr : String := "$20 - $30"

/-- The spec's no-salary example. -/
def exSalaryNoneStr : String := "no salary mentioned"

/-- A range whose min is in the monthly band while the max is not. -/
def exSalaryMonthlyBandStr : String := "$400 - $30,000"

/-- A range where only the min carries a `k` suffix. -/
def exSalaryKStr : String := "$50k - $70"

/-- A first sample job. -/
def exJob1 : JobPost :=
  { id := "go-1", title := "backend engineer",
    job_url := "https://www.example.com/jobs/1", date_posted := some 10,
    description := none, compensation := none }

/-- A second sample job. -/
def exJob2 : JobPost :=
  { id := "go-2", title := "data analyst",
    job_url := "https://www.example.com/jobs/2", date_posted := none,
    description := none, compensation := none }

/-- A direct Google response that fails the job-data marker test. -/
def googleBlockedResp : HttpResponse :=
  { status := 403, text := "unusual traffic from your computer network" }

/-- FlareSolverr configured and answering with an ok solution. -/
def fsConfiguredOk : FsConfig :=
  { configured := true, outcome := .okResponse "solved page" [] }

/-- FlareSolverr not configured. -/
def fsUnconfigured : FsConfig :=
  { configured := false, outcome := .failed }

/-- A direct Google response that passes the marker test: the marker
followed by 1000 filler characters. -/
def googleOkText : String :=
  String.mk (googleJobsMarker.data ++ List.replicate 1000 'a')

/-- The 200-status response carrying `googleOkText`. -/
def googleOkResp : HttpResponse :=
  { status := 200, text := googleOkText }

/-- An initial-page parse finding two jobs and no forward cursor. -/
def parseInitialTwoNoCursor : String → Option String × List JobPost :=
  fun _ => (none, [exJob1, exJob2])

/-- A request asking for more than the 900-result ceiling. -/
def exScraperInput901 : ScraperInput :=
  { site_type := ["google"], search_term := some "software engineer",
    google_search_term := none, location := some "San Francisco, CA",
    distance := 50, is_remote := false, job_type := none, easy_apply := none,
    description_format := "markdown", linkedin_fetch_description := false,
    results_wanted := 901, linkedin_company_ids := [], offset := 0,
    hours_old := none, country := "usa" }

/-- A record row carrying only `id` and `site`, with an explicit all-NA
`skills` entry. -/
def exRecordRow : RecordRow :=
  [("id", some "go-1"), ("site", some "google"), ("skills", none)]

/-- Three completed sites: two successes around one raised scraper. -/
def exOutcomes : List SiteOutcome :=
  [("glassdoor", .ok [exJob1]), ("google", .error "ConnectionError"),
   ("zip_recruiter", .ok [exJob2])]

/-! ## Theorems -/

/-- C5 (counterexample): on `"$400 - $30,000"` the pattern matches with
min 400 and max 30000; the min classifies the range as monthly, both
annualized values (4800 and 360000) lie inside 1000-700000 and min < max,
so the claim's discard rule keeps the match — yet `extract_salary`
returns all nulls, because the max does not sit in the monthly band and
the annualized max is never computed. -/
theorem extract_salary_monthly_band_counterexample :
    regexSearchMinMax exSalaryMonthlyBandStr.data =
      some { minVal := 400, minK := false, maxVal := 30000, maxK := false } ∧
    (350 ≤ 400 ∧ 400 < 30000) ∧
    (1000 ≤ 400 * 12 ∧ 400 * 12 ≤ 700000 ∧ 1000 ≤ 30000 * 12 ∧
      30000 * 12 ≤ 700000 ∧ 400 * 12 < 30000 * 12) ∧
    extractSalaryDefaults false exSalaryMonthlyBandStr.data =
      (none, none, none, none) :=
  ⟨by decide, by decide, by decide, by decide⟩

/-- C5 (amended): the three concrete examples hold as the spec states
them, and in general a matched range is classified hourly below 350,
monthly below 30000, otherwise yearly — but a match is discarded not only
when the annualized values leave 1000-700000 or min ≥ max, also whenever
the max falls outside the min's magnitude band. -/
theorem extract_salary_examples_and_band_rule :
    extractSalaryDefaults false exSalaryYearlyStr.data
      = (some "yearly", some 50000, some 70000, some "USD") ∧
    extractSalaryDefaults false exSalaryHourlyStr.data
      = (some "hourly", some 20, some 30, some "USD") ∧
    extractSalaryDefaults false exSalaryNoneStr.data = (none, none, none, none) ∧
    ∀ mn mx : Nat,
      salaryFromMinMax 1000 700000 350 30000 false mn mx =
        if specInBand mn mx ∧
            1000 ≤ specAnnual mn mn ∧ specAnnual mn mn ≤ 700000 ∧
            1000 ≤ specAnnual mn mx ∧ specAnnual mn mx ≤ 700000 ∧
            specAnnual mn mn < specAnnual mn mx then
          (some (specInterval mn), some mn, some mx, some "USD")
        else (none, none, none, none) := by
  refine ⟨by decide, by decide, by decide, ?_⟩
  intro mn mx
  unfold salaryFromMinMax salaryValidate specInterval specAnnual specInBand
  by_cases h1 : mn < 350
  · simp only [if_pos h1]
    by_cases h2 : mx < 350
    · simp only [h2, if_true, true_and]
      by_cases hz : mx * 2080 = 0
      · rw [if_pos hz, if_neg]
        rintro ⟨_, _, h, _⟩
        omega
      · simp only [if_neg hz, Bool.false_eq_true, if_false]
    · simp only [if_neg h2]
      rw [if_neg]
      rintro ⟨h, _⟩
      exact h2 h
  · simp only [if_neg h1]
    by_cases h1b : mn < 30000
    · simp only [if_pos h1b]
      by_cases h2 : mx < 30000
      · simp only [h2, if_true, true_and]
        by_cases hz : mx * 12 = 0
        · rw [if_pos hz, if_neg]
          rintro ⟨_, _, h, _⟩
          omega
        · simp only [if_neg hz, Bool.false_eq_true, if_false]
      · simp only [if_neg h2]
        rw [if_neg]
        rintro ⟨h, _⟩
        exact h2 h
    · simp only [if_neg h1b, true_and]
      by_cases hz : mx = 0
      · rw [if_pos hz, if_neg]
        rintro ⟨_, _, h, _⟩
        omega
      · simp only [if_neg hz, Bool.false_eq_true, if_false]

/-- C6 (counterexample): on `"$50k - $70"` only the min carries a `k`
suffix, yet the returned max is 70000 = 70 × 1000 — the multiplier was
applied to a max that carries no suffix, so it is not applied
independently. -/
theorem k_suffix_not_independent_counterexample :
    regexSearchMinMax exSalaryKStr.data =
      some { minVal := 50, minK := true, maxVal := 70, maxK := false } ∧
    extractSalaryDefaults false exSalaryKStr.data =
      (some "yearly", some 50000, some 70000, some "USD") ∧
    (70000 : Nat) = 70 * 1000 ∧ (70 * 1000 : Nat) ≠ 70 :=
  ⟨by decide, by decide, by decide, by decide⟩

/-- C6 (amended): for every input the pattern matches, the ×1000
multiplier is applied jointly: both min and max are multiplied by 1000
exactly when at least one of the two suffix groups carries a `k`. -/
theorem k_suffix_joint_multiplier (e : Bool) (s : List Char) (m : SalMatch)
    (h : regexSearchMinMax s = some m) :
    extract_salary 1000 700000 350 30000 e s =
      salaryFromMinMax 1000 700000 350 30000 e
        (if m.minK || m.maxK then m.minVal * 1000 else m.minVal)
        (if m.minK || m.maxK then m.maxVal * 1000 else m.maxVal) := by
  cases s with
  | nil => simp [regexSearchMinMax] at h
  | cons c cs =>
    simp only [extract_salary, List.isEmpty_cons, h, applyKSuffix]
    cases hk : m.minK || m.maxK
    · simp [hk]
    · simp [hk]

/-- C6 (witness): the joint-multiplier theorem applied to `"$50k - $70"`. -/
theorem k_suffix_joint_multiplier_witness :
    regexSearchMinMax exSalaryKStr.data =
      some { minVal := 50, minK := true, maxVal := 70, maxK := false } ∧
    extract_salary 1000 700000 350 30000 false exSalaryKStr.data =
      salaryFromMinMax 1000 700000 350 30000 false
        (if (true : Bool) || false then 50 * 1000 else 50)
        (if (true : Bool) || false then 70 * 1000 else 70) :=
  ⟨by decide,
    k_suffix_joint_multiplier false exSalaryKStr.data
      { minVal := 50, minK := true, maxVal := 70, maxK := false } (by decide)⟩

/-- C1: the claim says scrape never raises past its boundary, but on every
path that consumes the FlareSolverr result both Google and ZipRecruiter
subscript the returned `(text, cookies)` tuple with the string
`"response"`, raising an uncaught `TypeError`: shown for Google behind a
blocked direct request with FlareSolverr configured, for Google with
FlareSolverr unconfigured (the tuple `(None, None)` still fails the
`is not None` guard), and for ZipRecruiter's website path. -/
theorem flaresolverr_tuple_consumption_raises :
    googleScrape parseInitialTwoNoCursor googleBlockedResp fsConfiguredOk [] 0 15 0 =
      .error (.typeError "tuple indices must be integers or slices, not str") ∧
    google_get_initial_cursor_and_jobs parseInitialTwoNoCursor googleBlockedResp
        fsUnconfigured =
      .error (.typeError "tuple indices must be integers or slices, not str") ∧
    zipScrape fsConfiguredOk (fun _ => []) [] 15 =
      .error (.typeError "tuple indices must be integers or slices, not str") :=
  ⟨rfl, rfl, rfl⟩

set_option maxRecDepth 8192 in
/-- C2: the claim bounds every returned `JobResponse` by
`results_wanted`, but `Google.scrape` returns the initial page's job list
unsliced when no forward cursor is found: with `results_wanted = 1` and
two jobs on the initial page the response holds 2 jobs. -/
theorem google_no_cursor_unsliced_return :
    googleScrape parseInitialTwoNoCursor googleOkResp fsUnconfigured [] 0 1 0 =
      .ok [exJob1, exJob2] ∧
    1 < [exJob1, exJob2].length :=
  ⟨rfl, by decide⟩

/-- C9 (counterexample): `Google.scrape` writes the 900 clamp through its
alias of the shared input, so a request with `results_wanted = 901` is not
equal to itself after the call. -/
theorem scraper_input_mutation_counterexample :
    google_scrape_input_after exScraperInput901 ≠ exScraperInput901 ∧
    (google_scrape_input_after exScraperInput901).results_wanted = 900 ∧
    exScraperInput901.results_wanted = 901 :=
  ⟨by decide, by decide, by decide⟩

/-- C9 (amended): Google and Glassdoor replace the shared input's
`results_wanted` by `min 900 results_wanted` in place and leave every
other field unchanged; ZipRecruiter leaves the input untouched. -/
theorem scraper_input_only_results_wanted_clamped (si : ScraperInput) :
    (google_scrape_input_after si).results_wanted = min 900 si.results_wanted ∧
    (google_scrape_input_after si).site_type = si.site_type ∧
    (google_scrape_input_after si).search_term = si.search_term ∧
    (google_scrape_input_after si).google_search_term = si.google_search_term ∧
    (google_scrape_input_after si).location = si.location ∧
    (google_scrape_input_after si).distance = si.distance ∧
    (google_scrape_input_after si).is_remote = si.is_remote ∧
    (google_scrape_input_after si).job_type = si.job_type ∧
    (google_scrape_input_after si).easy_apply = si.easy_apply ∧
    (google_scrape_input_after si).description_format = si.description_format ∧
    (google_scrape_input_after si).linkedin_fetch_description
      = si.linkedin_fetch_description ∧
    (google_scrape_input_after si).linkedin_company_ids = si.linkedin_company_ids ∧
    (google_scrape_input_after si).offset = si.offset ∧
    (google_scrape_input_after si).hours_old = si.hours_old ∧
    (google_scrape_input_after si).country = si.country ∧
    glassdoor_scrape_input_after si = google_scrape_input_after si ∧
    ziprecruiter_scrape_input_after si = si :=
  ⟨rfl, rfl, rfl, rfl, rfl, rfl, rfl, rfl, rfl, rfl, rfl, rfl, rfl, rfl, rfl,
    rfl, rfl⟩

/-- A `salary_source` surviving the truthiness rewrite of lines 192-196
presupposes a present, non-`None`, nonzero `min_amount`. -/
lemma finalizeSalarySource_truthy (base : SalaryCols) (src : String)
    (h : (finalizeSalarySource base).salary_source = some (some src)) :
    ∃ v, (finalizeSalarySource base).min_amount = some (some v) ∧ v ≠ 0 := by
  unfold finalizeSalarySource at h ⊢
  rcases hb : base.min_amount with _ | mv
  · rw [hb] at h
    simp at h
  · rcases mv with _ | v
    · rw [hb] at h
      simp at h
    · by_cases hv : v = 0
      · rw [hb] at h
        simp [hv] at h
      · exact ⟨v, by simp [hb], hv⟩

/-- C10: for a record without structured compensation, the merge step
populates interval/min_amount/max_amount/currency from description-based
extraction exactly when the requested country is USA; for any other
country those keys stay unset and `salary_source` is set to null; and a
non-null `salary_source` always comes with a present, truthy
`min_amount`. -/
theorem merge_salary_columns_usa_gate :
    (∀ (enforce : Bool) (desc : Option String),
      mergeSalaryColumns false enforce none desc =
        { interval := none, min_amount := none, max_amount := none,
          currency := none, salary_source := some none }) ∧
    (∀ (enforce : Bool) (desc : Option String),
      mergeSalaryColumns true enforce none desc =
        { interval := some (extractSalaryDefaults enforce (descChars desc)).1
          min_amount := some (extractSalaryDefaults enforce (descChars desc)).2.1
          max_amount := some (extractSalaryDefaults enforce (descChars desc)).2.2.1
          currency := some (extractSalaryDefaults enforce (descChars desc)).2.2.2
          salary_source := some
            (match (extractSalaryDefaults enforce (descChars desc)).2.1 with
              | some v => if v ≠ 0 then some "description" else none
              | none => none) }) ∧
    (∀ (usa enforce : Bool) (comp : Option Compensation) (desc : Option String)
        (src : String),
      (mergeSalaryColumns usa enforce comp desc).salary_source = some (some src) →
      ∃ v, (mergeSalaryColumns usa enforce comp desc).min_amount = some (some v) ∧
        v ≠ 0) := by
  refine ⟨fun enforce desc => rfl, fun enforce desc => ?_,
    fun usa enforce comp desc src h => ?_⟩
  · unfold mergeSalaryColumns mergeSalaryBase finalizeSalarySource
    rcases hq : extractSalaryDefaults enforce (descChars desc) with ⟨i, mnv, mxv, cu⟩
    simp only [hq, if_true]
    rcases mnv with _ | v
    · rfl
    · by_cases hv : v = 0
      · simp [hv]
      · simp [hv]
  · exact finalizeSalarySource_truthy _ src h

/-- C10 (witness): the country gate applied to a non-USA record and the
truthiness rule applied to a USA record whose description carries
`"$20 - $30"`. -/
theorem merge_salary_columns_usa_gate_witness :
    mergeSalaryColumns false false none (some exSalaryHourlyStr) =
      { interval := none, min_amount := none, max_amount := none,
        currency := none, salary_source := some none } ∧
    ∃ v, (mergeSalaryColumns true false none (some exSalaryHourlyStr)).min_amount
        = some (some v) ∧ v ≠ 0 :=
  ⟨merge_salary_columns_usa_gate.1 false (some exSalaryHourlyStr),
    merge_salary_columns_usa_gate.2.2 true false none (some exSalaryHourlyStr)
      "description" (by decide)⟩

/-- C8: the sorted merged rows are a permutation of the input, site names
are non-decreasing, and within one site the dates are non-increasing with
null dates after every dated row. -/
theorem merged_rows_sort_contract (rows : List OutRow) :
    (sortMergedRows rows).Perm rows ∧
    (sortMergedRows rows).Pairwise (fun a b =>
      a.site ≤ b.site ∧
      (a.site = b.site → dateKey b.date_posted ≤ dateKey a.date_posted) ∧
      (a.site = b.site → a.date_posted = none → b.date_posted = none)) := by
  constructor
  · exact List.perm_insertionSort pandasRowLe rows
  · have h : (sortMergedRows rows).Pairwise pandasRowLe :=
      List.sorted_insertionSort pandasRowLe rows
    refine h.imp ?_
    intro a b hab
    rcases hab with hlt | ⟨heq, hd⟩
    · exact ⟨le_of_lt hlt, fun he => absurd (he ▸ hlt) (lt_irrefl _),
        fun he _ => absurd (he ▸ hlt) (lt_irrefl _)⟩
    · refine ⟨le_of_eq heq, fun _ => hd, fun _ hnone => ?_⟩
      cases hb : b.date_posted with
      | none => rfl
      | some d =>
        rw [hnone, hb] at hd
        simp [dateKey] at hd

/-- A `contains` returning `false` really means non-membership. -/
lemma contains_false_not_mem {l : List String} {a : String}
    (h : l.contains a = false) : a ∉ l := by
  intro hm
  have h2 : l.elem a = true := List.elem_iff.mpr hm
  have h3 : l.elem a = false := h
  rw [h2] at h3
  exact Bool.noConfusion h3

/-- Invariants of Glassdoor's per-page job processing: emitted jobs carry
fresh URLs, `seen_urls` grows by exactly those URLs, the URLs are pairwise
distinct, and the description fetches are keyed one-to-one by the emitted
jobs' listing ids. -/
lemma glassdoor_process_jobs_spec (baseUrl : String) (f : String → Option String)
    (raws : List GdRawJob) :
    ∀ st : ScrapeState,
      (∀ j ∈ (glassdoor_process_jobs baseUrl f st raws).2,
        j.job_url ∉ st.seen_urls) ∧
      ((glassdoor_process_jobs baseUrl f st raws).1.seen_urls
        = st.seen_urls
          ++ ((glassdoor_process_jobs baseUrl f st raws).2.map JobPost.job_url)) ∧
      (((glassdoor_process_jobs baseUrl f st raws).2.map JobPost.job_url).Pairwise
        (· ≠ ·)) ∧
      (∃ ks, (glassdoor_process_jobs baseUrl f st raws).1.fetched
          = st.fetched ++ ks ∧
        ks.map (glassdoorJobUrl baseUrl)
          = (glassdoor_process_jobs baseUrl f st raws).2.map JobPost.job_url) := by
  induction raws with
  | nil =>
    intro st
    refine ⟨by simp [glassdoor_process_jobs], ?_, ?_, ⟨[], ?_, ?_⟩⟩ <;>
      simp [glassdoor_process_jobs]
  | cons r rs ih =>
    intro st
    by_cases hs : st.seen_urls.contains (glassdoorJobUrl baseUrl r.listingId)
    · have hpj : glassdoor_process_job baseUrl f st r = (st, none) := by
        unfold glassdoor_process_job
        rw [if_pos hs]
      have hexp : glassdoor_process_jobs baseUrl f st (r :: rs)
          = glassdoor_process_jobs baseUrl f st rs := by
        show (let p := glassdoor_process_job baseUrl f st r
              let q := glassdoor_process_jobs baseUrl f p.1 rs
              (q.1, match p.2 with | some jp => jp :: q.2 | none => q.2))
          = glassdoor_process_jobs baseUrl f st rs
        rw [hpj]
      rw [hexp]
      exact ih st
    · have hs' : st.seen_urls.contains (glassdoorJobUrl baseUrl r.listingId) = false :=
        Bool.of_not_eq_true hs
      set url := glassdoorJobUrl baseUrl r.listingId with hurl
      set jp : JobPost :=
        { id := "gd-" ++ r.listingId
          title := r.title
          job_url := url
          date_posted := r.ageInDays
          description := f r.listingId
          compensation := r.compensation } with hjp
      set st' : ScrapeState :=
        { seen_urls := st.seen_urls ++ [url]
          fetched := st.fetched ++ [r.listingId] } with hst'
      have hpj : glassdoor_process_job baseUrl f st r = (st', some jp) := by
        unfold glassdoor_process_job
        rw [if_neg hs]
      have hexp : glassdoor_process_jobs baseUrl f st (r :: rs)
          = ((glassdoor_process_jobs baseUrl f st' rs).1,
             jp :: (glassdoor_process_jobs baseUrl f st' rs).2) := by
        show (let p := glassdoor_process_job baseUrl f st r
              let q := glassdoor_process_jobs baseUrl f p.1 rs
              (q.1, match p.2 with | some jp => jp :: q.2 | none => q.2))
          = _
        rw [hpj]
      rw [hexp]
      obtain ⟨ha, hb, hc, ks, hk1, hk2⟩ := ih st'
      have hfresh : url ∉ st.seen_urls := contains_false_not_mem hs'
      refine ⟨?_, ?_, ?_, ⟨r.listingId :: ks, ?_, ?_⟩⟩
      · intro j hj
        rcases List.mem_cons.mp hj with hj | hj
        · rw [hj]
          exact hfresh
        · intro hin
          exact ha j hj (by
            rw [hst']
            exact List.mem_append.mpr (Or.inl hin))
      · rw [List.map_cons, hb, hst']
        simp [List.append_assoc]
      · rw [List.map_cons]
        refine List.pairwise_cons.mpr ⟨?_, hc⟩
        intro u hu
        rcases List.mem_map.mp hu with ⟨j, hj, hju⟩
        intro hequ
        apply ha j hj
        rw [hst']
        refine List.mem_append.mpr (Or.inr ?_)
        rw [hju, ← hequ]
        exact List.mem_singleton.mpr rfl
      · rw [hk1, hst']
        simp [List.append_assoc]
      · rw [List.map_cons, hk2, List.map_cons]

/-- Invariants of ZipRecruiter's per-page job processing: emitted jobs
carry fresh URLs, `seen_urls` grows by exactly those URLs, the URLs are
pairwise distinct, and the detail fetches are keyed by exactly those
URLs. -/
lemma ziprecruiter_process_jobs_spec (f : String → Option String × Option String)
    (raws : List ZrRawJob) :
    ∀ st : ScrapeState,
      (∀ j ∈ (ziprecruiter_process_jobs f st raws).2, j.job_url ∉ st.seen_urls) ∧
      ((ziprecruiter_process_jobs f st raws).1.seen_urls
        = st.seen_urls
          ++ ((ziprecruiter_process_jobs f st raws).2.map JobPost.job_url)) ∧
      (((ziprecruiter_process_jobs f st raws).2.map JobPost.job_url).Pairwise
        (· ≠ ·)) ∧
      ((ziprecruiter_process_jobs f st raws).1.fetched
        = st.fetched
          ++ ((ziprecruiter_process_jobs f st raws).2.map JobPost.job_url)) := by
  induction raws with
  | nil =>
    intro st
    refine ⟨by simp [ziprecruiter_process_jobs], ?_, ?_, ?_⟩ <;>
      simp [ziprecruiter_process_jobs]
  | cons r rs ih =>
    intro st
    by_cases hs : st.seen_urls.contains (zrJobUrl r.listing_key)
    · have hpj : ziprecruiter_process_job f st r = (st, none) := by
        unfold ziprecruiter_process_job
        rw [if_pos hs]
      have hexp : ziprecruiter_process_jobs f st (r :: rs)
          = ziprecruiter_process_jobs f st rs := by
        show (let p := ziprecruiter_process_job f st r
              let q := ziprecruiter_process_jobs f p.1 rs
              (q.1, match p.2 with | some jp => jp :: q.2 | none => q.2))
          = ziprecruiter_process_jobs f st rs
        rw [hpj]
      rw [hexp]
      exact ih st
    · have hs' : st.seen_urls.contains (zrJobUrl r.listing_key) = false :=
        Bool.of_not_eq_true hs
      set url := zrJobUrl r.listing_key with hurl
      set jp : JobPost :=
        { id := "zr-" ++ r.listing_key
          title := r.name
          job_url := url
          date_posted := some r.posted_time
          description := (f url).1
          compensation := r.compensation } with hjp
      set st' : ScrapeState :=
        { seen_urls := st.seen_urls ++ [url]
          fetched := st.fetched ++ [url] } with hst'
      have hpj : ziprecruiter_process_job f st r = (st', some jp) := by
        unfold ziprecruiter_process_job
        rw [if_neg hs]
      have hexp : ziprecruiter_process_jobs f st (r :: rs)
          = ((ziprecruiter_process_jobs f st' rs).1,
             jp :: (ziprecruiter_process_jobs f st' rs).2) := by
        show (let p := ziprecruiter_process_job f st r
              let q := ziprecruiter_process_jobs f p.1 rs
              (q.1, match p.2 with | some jp => jp :: q.2 | none => q.2))
          = _
        rw [hpj]
      rw [hexp]
      obtain ⟨ha, hb, hc, hk⟩ := ih st'
      have hfresh : url ∉ st.seen_urls := contains_false_not_mem hs'
      refine ⟨?_, ?_, ?_, ?_⟩
      · intro j hj
        rcases List.mem_cons.mp hj with hj | hj
        · rw [hj]
          exact hfresh
        · intro hin
          exact ha j hj (by
            rw [hst']
            exact List.mem_append.mpr (Or.inl hin))
      · rw [List.map_cons, hb, hst']
        simp [List.append_assoc]
      · rw [List.map_cons]
        refine List.pairwise_cons.mpr ⟨?_, hc⟩
        intro u hu
        rcases List.mem_map.mp hu with ⟨j, hj, hju⟩
        intro hequ
        apply ha j hj
        rw [hst']
        refine List.mem_append.mpr (Or.inr ?_)
        rw [hju, ← hequ]
        exact List.mem_singleton.mpr rfl
      · rw [List.map_cons, hk, hst']
        simp [List.append_assoc]

/-- C3: within one scrape the emitted canonical job URLs are pairwise
distinct for both Glassdoor and ZipRecruiter; a job whose URL is already
in `seen_urls` is skipped with no state change (no record, no detail
fetch); and starting from an empty fetch trace no detail-fetch key is
ever repeated. -/
theorem dedup_checks_before_fetch :
    (∀ (baseUrl : String) (f : String → Option String) (st : ScrapeState)
        (raws : List GdRawJob),
      ((glassdoor_process_jobs baseUrl f st raws).2.map JobPost.job_url).Pairwise
        (· ≠ ·)) ∧
    (∀ (f : String → Option String × Option String) (st : ScrapeState)
        (raws : List ZrRawJob),
      ((ziprecruiter_process_jobs f st raws).2.map JobPost.job_url).Pairwise
        (· ≠ ·)) ∧
    (∀ (baseUrl : String) (f : String → Option String) (st : ScrapeState)
        (raw : GdRawJob),
      st.seen_urls.contains (glassdoorJobUrl baseUrl raw.listingId) = true →
      glassdoor_process_job baseUrl f st raw = (st, none)) ∧
    (∀ (f : String → Option String × Option String) (st : ScrapeState)
        (raw : ZrRawJob),
      st.seen_urls.contains (zrJobUrl raw.listing_key) = true →
      ziprecruiter_process_job f st raw = (st, none)) ∧
    (∀ (baseUrl : String) (f : String → Option String) (seen0 : List String)
        (raws : List GdRawJob),
      ((glassdoor_process_jobs baseUrl f ⟨seen0, []⟩ raws).1.fetched).Pairwise
        (· ≠ ·)) ∧
    (∀ (f : String → Option String × Option String) (seen0 : List String)
        (raws : List ZrRawJob),
      ((ziprecruiter_process_jobs f ⟨seen0, []⟩ raws).1.fetched).Pairwise
        (· ≠ ·)) := by
  refine ⟨?_, ?_, ?_, ?_, ?_, ?_⟩
  · intro baseUrl f st raws
    exact (glassdoor_process_jobs_spec baseUrl f raws st).2.2.1
  · intro f st raws
    exact (ziprecruiter_process_jobs_spec f raws st).2.2.1
  · intro baseUrl f st raw h
    unfold glassdoor_process_job
    rw [if_pos h]
  · intro f st raw h
    unfold ziprecruiter_process_job
    rw [if_pos h]
  · intro baseUrl f seen0 raws
    obtain ⟨-, -, hc, ks, hk1, hk2⟩ :=
      glassdoor_process_jobs_spec baseUrl f raws ⟨seen0, []⟩
    rw [hk1, List.nil_append]
    rw [← hk2] at hc
    exact (List.pairwise_map.mp hc).imp (fun h heq => h (by rw [heq]))
  · intro f seen0 raws
    obtain ⟨-, -, hc, hk⟩ := ziprecruiter_process_jobs_spec f raws ⟨seen0, []⟩
    rw [hk, List.nil_append]
    exact hc

/-- C3 (witness): the skip rule applied to one already-seen Glassdoor job
and one already-seen ZipRecruiter job. -/
theorem dedup_checks_before_fetch_witness :
    glassdoor_process_job "https://www.glassdoor.com/" (fun _ => none)
      ⟨[glassdoorJobUrl "https://www.glassdoor.com/" "123"], []⟩
      ⟨"123", "engineer", none, none⟩ =
      (⟨[glassdoorJobUrl "https://www.glassdoor.com/" "123"], []⟩, none) ∧
    ziprecruiter_process_job (fun _ => (none, none))
      ⟨[zrJobUrl "k1"], []⟩ ⟨"k1", "analyst", 5, none⟩ =
      (⟨[zrJobUrl "k1"], []⟩, none) :=
  ⟨dedup_checks_before_fetch.2.2.1 _ _ _ _ (by decide),
   dedup_checks_before_fetch.2.2.2.1 _ _ _ (by decide)⟩

/-- `d[k] = v` makes `(k, v)` an entry of the dict. -/
lemma mem_dictSet_self (d : List (String × List JobPost)) (k : String)
    (v : List JobPost) : (k, v) ∈ dictSet d k v := by
  unfold dictSet
  split
  · next hany =>
    rcases List.any_eq_true.mp hany with ⟨p, hp, hpk⟩
    refine List.mem_map.mpr ⟨p, hp, ?_⟩
    simp only [hpk, if_true]
  · exact List.mem_append.mpr (Or.inr (List.mem_singleton.mpr rfl))

/-- `d[k] = v` leaves entries under other keys untouched. -/
lemma mem_dictSet_ne {d : List (String × List JobPost)} {k s : String}
    {v w : List JobPost} (hs : s ≠ k) :
    (s, w) ∈ dictSet d k v ↔ (s, w) ∈ d := by
  unfold dictSet
  split
  · constructor
    · intro hm
      rcases List.mem_map.mp hm with ⟨p, hp, hpe⟩
      by_cases hpk : p.1 == k
      · rw [if_pos hpk] at hpe
        injection hpe with h1 _
        exact absurd h1.symm hs
      · rw [if_neg hpk] at hpe
        exact hpe ▸ hp
    · intro hm
      refine List.mem_map.mpr ⟨(s, w), hm, ?_⟩
      rw [if_neg ?hne]
      case hne =>
        simp only [beq_iff_eq]
        exact hs
  · rw [List.mem_append]
    constructor
    · rintro (h | h)
      · exact h
      · rw [List.mem_singleton] at h
        injection h with h1 _
        exact absurd h1 hs
    · exact Or.inl

/-- Every entry after `d[k] = v` is an old entry or the new binding. -/
lemma mem_dictSet_cases {d : List (String × List JobPost)} {k s : String}
    {v w : List JobPost} (h : (s, w) ∈ dictSet d k v) :
    (s, w) ∈ d ∨ (s = k ∧ w = v) := by
  unfold dictSet at h
  split at h
  · rcases List.mem_map.mp h with ⟨p, hp, hpe⟩
    by_cases hpk : p.1 == k
    · rw [if_pos hpk] at hpe
      injection hpe with h1 h2
      exact Or.inr ⟨h1.symm, h2.symm⟩
    · rw [if_neg hpk] at hpe
      exact Or.inl (hpe ▸ hp)
  · rcases List.mem_append.mp h with h | h
    · exact Or.inl h
    · rw [List.mem_singleton] at h
      injection h with h1 h2
      exact Or.inr ⟨h1, h2⟩

/-- `d[k] = v` adds no key besides `k`. -/
lemma keys_dictSet {d : List (String × List JobPost)} {k s : String}
    {v : List JobPost} (h : s ∈ (dictSet d k v).map Prod.fst) :
    s ∈ d.map Prod.fst ∨ s = k := by
  rcases List.mem_map.mp h with ⟨p, hp, hps⟩
  rcases mem_dictSet_cases (show (p.1, p.2) ∈ dictSet d k v from hp) with h2 | h2
  · exact Or.inl (List.mem_map.mpr ⟨(p.1, p.2), h2, hps⟩)
  · exact Or.inr (hps ▸ h2.1)

/-- Sites never completed leave the collection dict untouched. -/
lemma collect_foldl_preserve (outcomes : List SiteOutcome) :
    ∀ (d : List (String × List JobPost)) (s : String),
      s ∉ outcomes.map Prod.fst →
      ∀ w, ((s, w) ∈ outcomes.foldl collectStep d ↔ (s, w) ∈ d) := by
  induction outcomes with
  | nil => intro d s _ w; rfl
  | cons o os ih =>
    intro d s hs w
    rw [List.map_cons, List.mem_cons] at hs
    push_neg at hs
    rw [List.foldl_cons]
    rw [ih (collectStep d o) s hs.2 w]
    unfold collectStep
    cases ho : o.2 with
    | ok jobs => exact mem_dictSet_ne hs.1
    | error e => rfl

/-- With pairwise-distinct site values, every successful outcome ends up
in the collection dict. -/
lemma collect_foldl_ok_mem (outcomes : List SiteOutcome) :
    ∀ (d : List (String × List JobPost)),
      (outcomes.map Prod.fst).Pairwise (· ≠ ·) →
      ∀ s jobs, (s, Except.ok jobs) ∈ outcomes →
        (s, jobs) ∈ outcomes.foldl collectStep d := by
  induction outcomes with
  | nil => intro d _ s jobs h; cases h
  | cons o os ih =>
    intro d hpw s jobs hm
    rw [List.map_cons, List.pairwise_cons] at hpw
    rw [List.foldl_cons]
    rcases List.mem_cons.mp hm with hm | hm
    · have hstep : collectStep d o = dictSet d s jobs := by
        rw [← hm]
        rfl
      have hnot : s ∉ os.map Prod.fst := fun hin => hpw.1 s hin (by rw [← hm])
      rw [collect_foldl_preserve os _ s hnot jobs, hstep]
      exact mem_dictSet_self d s jobs
    · exact ih (collectStep d o) hpw.2 s jobs hm

/-- With pairwise-distinct site values, a site that raised contributes no
dict entry. -/
lemma collect_foldl_error_not_mem (outcomes : List SiteOutcome) :
    ∀ (d : List (String × List JobPost)),
      (outcomes.map Prod.fst).Pairwise (· ≠ ·) →
      ∀ s, s ∉ d.map Prod.fst →
      (∃ e, (s, Except.error e) ∈ outcomes) →
        ∀ w, (s, w) ∉ outcomes.foldl collectStep d := by
  induction outcomes with
  | nil => rintro d _ s _ ⟨e, h⟩ w; cases h
  | cons o os ih =>
    rintro d hpw s hd ⟨e, hm⟩ w
    rw [List.map_cons, List.pairwise_cons] at hpw
    rw [List.foldl_cons]
    rcases List.mem_cons.mp hm with hm | hm
    · have hstep : collectStep d o = d := by
        rw [← hm]
        rfl
      have hnot : s ∉ os.map Prod.fst := fun hin => hpw.1 s hin (by rw [← hm])
      rw [hstep]
      intro hin
      exact hd (List.mem_map.mpr ⟨(s, w),
        (collect_foldl_preserve os d s hnot w).mp hin, rfl⟩)
    · have hso : s ∈ os.map Prod.fst :=
        List.mem_map.mpr ⟨(s, Except.error e), hm, rfl⟩
      have hne : s ≠ o.1 := fun h => hpw.1 s hso h.symm
      have hd' : s ∉ (collectStep d o).map Prod.fst := by
        unfold collectStep
        cases o.2 with
        | ok jobs =>
          intro hin
          rcases keys_dictSet hin with h | h
          · exact hd h
          · exact hne h
        | error e2 => exact hd
      exact ih (collectStep d o) hpw.2 s hd' ⟨e, hm⟩ w

/-- Every dict entry originates in a successful outcome. -/
lemma collect_foldl_sound (outcomes : List SiteOutcome) :
    ∀ (d : List (String × List JobPost)) (s : String) (w : List JobPost),
      (s, w) ∈ outcomes.foldl collectStep d →
      (s, w) ∈ d ∨ (s, Except.ok w) ∈ outcomes := by
  induction outcomes with
  | nil => intro d s w h; exact Or.inl h
  | cons o os ih =>
    intro d s w h
    rw [List.foldl_cons] at h
    rcases ih (collectStep d o) s w h with h2 | h2
    · unfold collectStep at h2
      cases ho : o.2 with
      | ok jobs =>
        rw [ho] at h2
        rcases mem_dictSet_cases h2 with h3 | h3
        · exact Or.inl h3
        · refine Or.inr (List.mem_cons.mpr (Or.inl ?_))
          have : o = (o.1, o.2) := rfl
          rw [this, ho, h3.1, h3.2]
      | error e =>
        rw [ho] at h2
        exact Or.inl h2
    · exact Or.inr (List.mem_cons.mpr (Or.inr h2))

/-- C4: over any completion order with pairwise-distinct site values, the
orchestrator keeps every succeeding source's jobs (each of its jobs
reaches the merged rows), gives a failing source no entry at all, and
invents nothing: every collected entry comes from a success. -/
theorem orchestrator_partial_failure_isolation
    (outcomes : List SiteOutcome)
    (hkeys : (outcomes.map Prod.fst).Pairwise (· ≠ ·)) :
    (∀ s jobs, (s, Except.ok jobs) ∈ outcomes →
      (s, jobs) ∈ collectSiteResults outcomes ∧
      ∀ j ∈ jobs, (s, j) ∈ mergedSiteRows outcomes) ∧
    (∀ s e, (s, Except.error e) ∈ outcomes →
      ∀ w, (s, w) ∉ collectSiteResults outcomes) ∧
    (∀ s w, (s, w) ∈ collectSiteResults outcomes → (s, Except.ok w) ∈ outcomes) := by
  refine ⟨fun s jobs hm => ?_, fun s e hm w => ?_, fun s w hm => ?_⟩
  · have hc : (s, jobs) ∈ collectSiteResults outcomes :=
      collect_foldl_ok_mem outcomes [] hkeys s jobs hm
    refine ⟨hc, fun j hj => ?_⟩
    unfold mergedSiteRows
    exact List.mem_flatMap.mpr ⟨(s, jobs), hc, List.mem_map.mpr ⟨j, hj, rfl⟩⟩
  · exact collect_foldl_error_not_mem outcomes [] hkeys s (by simp) ⟨e, hm⟩ w
  · rcases collect_foldl_sound outcomes [] s w hm with h | h
    · cases h
    · exact h

/-- C4 (witness): three sources, the middle one raising - both successes
are collected, the failure contributes nothing. -/
theorem orchestrator_partial_failure_isolation_witness :
    ("glassdoor", [exJob1]) ∈ collectSiteResults exOutcomes ∧
    (∀ w, ("google", w) ∉ collectSiteResults exOutcomes) ∧
    ("zip_recruiter", [exJob2]) ∈ collectSiteResults exOutcomes := by
  have hkeys : (exOutcomes.map Prod.fst).Pairwise (· ≠ ·) := by
    unfold exOutcomes
    decide
  have h := orchestrator_partial_failure_isolation exOutcomes hkeys
  refine ⟨?_, ?_, ?_⟩
  · exact (h.1 "glassdoor" [exJob1] (by unfold exOutcomes; exact List.Mem.head _)).1
  · exact fun w => h.2.1 "google" "ConnectionError"
      (by unfold exOutcomes; exact List.Mem.tail _ (List.Mem.head _)) w
  · exact (h.1 "zip_recruiter" [exJob2]
      (by unfold exOutcomes
          exact List.Mem.tail _ (List.Mem.tail _ (List.Mem.head _)))).1

/-- Growing the column union never loses a column. -/
lemma union_foldl_mono (rows : List RecordRow) :
    ∀ (acc : List String) (c : String), c ∈ acc → c ∈ rows.foldl unionStep acc := by
  induction rows with
  | nil => intro acc c h; exact h
  | cons r rs ih =>
    intro acc c h
    rw [List.foldl_cons]
    exact ih (unionStep acc r) c (List.mem_append.mpr (Or.inl h))

/-- Every column of every frame reaches the column union. -/
lemma unionCols_complete (rows : List RecordRow) :
    ∀ (acc : List String) (row : RecordRow), row ∈ rows →
      ∀ c ∈ row.map Prod.fst, c ∈ rows.foldl unionStep acc := by
  induction rows with
  | nil => intro acc row h; cases h
  | cons r rs ih =>
    intro acc row hrow c hc
    rw [List.foldl_cons]
    rcases List.mem_cons.mp hrow with hrow | hrow
    · by_cases hacc : acc.contains c
      · refine union_foldl_mono rs (unionStep acc r) c ?_
        exact List.mem_append.mpr (Or.inl (List.elem_iff.mp hacc))
      · refine union_foldl_mono rs (unionStep acc r) c ?_
        refine List.mem_append.mpr (Or.inr ?_)
        refine List.mem_filter.mpr ⟨hrow ▸ hc, ?_⟩
        have hfalse : acc.contains c = false := Bool.of_not_eq_true hacc
        rw [hfalse]
        rfl
    · exact ih (unionStep acc r) row hrow c hc

/-- A column a record does not carry looks up to NA. -/
lemma rowLookup_eq_none {row : RecordRow} {c : String}
    (h : c ∉ row.map Prod.fst) : rowLookup row c = none := by
  unfold rowLookup
  have hf : row.find? (fun p => p.1 == c) = none := by
    rw [List.find?_eq_none]
    intro p hp hbeq
    exact h (List.mem_map.mpr ⟨p, hp, (beq_iff_eq.mp hbeq)⟩)
  rw [hf]

/-- Looking a column up in a frame built by mapping over its own column
list finds exactly that column's image. -/
lemma find_zip_map (xs : List String) (f : String → Option String) (c : String) :
    (xs.zip (xs.map f)).find? (fun p => p.1 == c) =
      if c ∈ xs then some (c, f c) else none := by
  induction xs with
  | nil => rfl
  | cons x xs ih =>
    show ((x, f x) :: xs.zip (xs.map f)).find? (fun p => p.1 == c) = _
    rw [List.find?_cons]
    by_cases hx : x = c
    · simp only [hx, beq_self_eq_true]
      rw [if_pos (List.mem_cons.mpr (Or.inl rfl))]
    · have hb : (x == c) = false := beq_eq_false_iff_ne.mpr hx
      simp only [hb]
      rw [ih]
      by_cases hc : c ∈ xs
      · rw [if_pos hc, if_pos (List.mem_cons.mpr (Or.inr hc))]
      · rw [if_neg hc, if_neg ?hn]
        case hn =>
          intro hm
          rcases List.mem_cons.mp hm with hm | hm
          · exact hx hm.symm
          · exact hc hm

/-- Cell addressing across two concatenated column blocks, each built by
a map over its columns. -/
lemma cellAt_append_map (xs ys : List String) (f g : String → Option String)
    (c : String) :
    cellAt (xs ++ ys) (xs.map f ++ ys.map g) c =
      if c ∈ xs then f c else if c ∈ ys then g c else none := by
  unfold cellAt
  rw [List.zip_append (by simp), List.find?_append, find_zip_map xs f c,
    find_zip_map ys g c]
  by_cases h1 : c ∈ xs
  · simp [h1]
  · simp only [h1, if_false]
    by_cases h2 : c ∈ ys <;> simp [h2]

/-- C7 (amended): the empty record collection yields the empty,
columnless table; any non-empty one yields exactly the canonical column
sequence - canonical columns absent from every record are added
null-filled rather than dropped, non-canonical columns are dropped, and
each remaining cell is the record's non-NA value when it has one and NA
otherwise. -/
theorem merged_table_columns_canonical :
    mergeRecords [] = ⟨[], []⟩ ∧
    ∀ rows : List RecordRow, rows ≠ [] →
      (mergeRecords rows).columns = desired_order ∧
      (mergeRecords rows).cells =
        rows.map (fun row => desired_order.map
          (fun c => rowLookup (dropAllNaCols row) c)) := by
  refine ⟨rfl, fun rows hne => ?_⟩
  cases rows with
  | nil => exact absurd rfl hne
  | cons r rs =>
    constructor
    · rfl
    · show (List.map dropAllNaCols (r :: rs)
          |>.map (fun frow => (unionCols (List.map dropAllNaCols (r :: rs))).map
            (fun c => rowLookup frow c))
          |>.map (fun cr => cr ++ (desired_order.filter
            (fun c => !((unionCols (List.map dropAllNaCols (r :: rs))).contains c))).map
              (fun _ => (none : Option String)))
          |>.map (fun cr => desired_order.map
            (fun c => cellAt (unionCols (List.map dropAllNaCols (r :: rs))
              ++ desired_order.filter
                (fun c => !((unionCols (List.map dropAllNaCols (r :: rs))).contains c)))
              cr c)))
        = (r :: rs).map (fun row => desired_order.map
            (fun c => rowLookup (dropAllNaCols row) c))
      rw [List.map_map, List.map_map, List.map_map]
      refine List.map_congr_left ?_
      intro row hrow
      simp only [Function.comp]
      refine List.map_congr_left ?_
      intro c _
      set U := unionCols (List.map dropAllNaCols (r :: rs)) with hU
      set N := desired_order.filter (fun c => !(U.contains c)) with hN
      have hmap : (N.map (fun _ => (none : Option String)))
          = N.map (fun x => (fun _ => (none : Option String)) x) := rfl
      rw [cellAt_append_map U N (fun c => rowLookup (dropAllNaCols row) c)
        (fun _ => none) c]
      by_cases h1 : c ∈ U
      · rw [if_pos h1]
      · rw [if_neg h1]
        have hnone : rowLookup (dropAllNaCols row) c = none := by
          refine rowLookup_eq_none ?_
          intro hc
          exact h1 (unionCols_complete (List.map dropAllNaCols (r :: rs)) []
            (dropAllNaCols row) (List.mem_map.mpr ⟨row, hrow, rfl⟩) c hc)
        rw [hnone]
        by_cases h2 : c ∈ N
        · rw [if_pos h2]
        · rw [if_neg h2]

/-- C7 (counterexample): a single record with an all-NA `skills` entry
and no `title` entry at all still produces a table containing both the
`skills` and the `title` column - columns present in zero records are
not dropped when they are canonical. -/
theorem merged_table_keeps_absent_columns_counterexample :
    ("skills" ∈ (mergeRecords [exRecordRow]).columns ∧
     "title" ∈ (mergeRecords [exRecordRow]).columns) ∧
    rowLookup (dropAllNaCols exRecordRow) "skills" = none ∧
    (∀ p ∈ exRecordRow, p.1 ≠ "title") :=
  ⟨⟨by decide, by decide⟩, by decide, by decide⟩

/-- C7 (witness): the amended description applied to one concrete
record. -/
theorem merged_table_columns_canonical_witness :
    (mergeRecords [exRecordRow]).columns = desired_order ∧
    (mergeRecords [exRecordRow]).cells =
      [desired_order.map (fun c => rowLookup (dropAllNaCols exRecordRow) c)] :=
  ⟨(merged_table_columns_canonical.2 [exRecordRow] (by decide)).1,
   (merged_table_columns_canonical.2 [exRecordRow] (by decide)).2⟩

end JobSpy
